import Mathlib

/-!
Verification development for the CEFR page-rewriting content script.
The JavaScript source is shallowly embedded: JS strings are Lean `String`
(a list of characters), the DOM is an explicit tree value, the mutable
session (`originalTexts`, `isRewritten`) is explicit state passing, and the
network layer is an oracle value describing each fetch outcome.
-/

namespace Cefr

/-! ### JavaScript string primitives -/

/-- Model of `String.prototype.trim`: drop whitespace from both ends. -/
def jsTrim (s : String) : String :=
  ⟨((s.data.dropWhile Char.isWhitespace).reverse.dropWhile Char.isWhitespace).reverse⟩

/-- First index at which `sub` occurs in the character list, counting from `i`. -/
def jsIndexOfAux (sub : List Char) : Nat → List Char → Option Nat
  | i, [] => if sub.isEmpty then some i else none
  | i, c :: t => if List.isPrefixOf sub (c :: t) then some i else jsIndexOfAux sub (i + 1) t

/-- Model of `String.prototype.includes`. -/
def jsIncludes (s sub : String) : Bool :=
  (jsIndexOfAux sub.data 0 s.data).isSome

/-- Model of `String.prototype.lastIndexOf`: -1 when absent. -/
def jsLastIndexOf (s sub : String) : Int :=
  match ((List.range (s.data.length + 1)).filter
      (fun i => List.isPrefixOf sub.data (s.data.drop i))).getLast? with
  | some i => (i : Int)
  | none => -1

/-- Model of `String.prototype.replace` with a string pattern: replaces the
first occurrence only. -/
def jsReplaceFirst (s sub repl : String) : String :=
  match jsIndexOfAux sub.data 0 s.data with
  | none => s
  | some i => ⟨s.data.take i ++ repl.data ++ s.data.drop (i + sub.data.length)⟩

/-- Model of `s.substring(0, n)` (also `s.slice(0, n)`): the first `n` characters. -/
def jsTake (s : String) (n : Nat) : String :=
  ⟨s.data.take n⟩

/-- Model of `s.slice(-k)`: the last `k` characters (the whole string when
`k` exceeds its length, matching the JS clamp of a negative start index). -/
def jsSliceLast (s : String) (k : Nat) : String :=
  ⟨s.data.drop (s.data.length - k)⟩

/-- Model of `.replace(/\s+/g, ' ')`: collapse each maximal whitespace run to
one space. The flag records whether the previous character was whitespace. -/
def collapseWsAux : Bool → List Char → List Char
  | _, [] => []
  | prevWs, c :: t =>
    if c.isWhitespace then
      if prevWs then collapseWsAux true t else ' ' :: collapseWsAux true t
    else c :: collapseWsAux false t

/-- Collapse internal whitespace runs of a string to single spaces. -/
def collapseWs (s : String) : String :=
  ⟨collapseWsAux false s.data⟩

/-- Lower-case a string (used to model case-insensitive tag matching). -/
def jsToLower (s : String) : String :=
  ⟨s.data.map Char.toLower⟩

/-- Upper-case a string (DOM `tagName` is upper case for HTML elements). -/
def jsToUpper (s : String) : String :=
  ⟨s.data.map Char.toUpper⟩

/-! ### Network layer

Each `fetch` round-trip to the completion endpoint is summarised by its
observable outcome: the promise rejected (transport error), the response was
not ok (HTTP error with the upstream error message), or it succeeded and the
first choice's message content was a given string. -/

/-- Outcome of one fetch to the chat-completion endpoint. -/
inductive FetchResult where
  | transportError (msg : String)
  | httpError (status : Nat) (msg : String)
  | success (content : String)
deriving DecidableEq

/-- A rewrite request fails when the transport fails, the HTTP status is not
ok, or the completion is blank after trimming. -/
def requestFails : FetchResult → Bool
  | .transportError _ => true
  | .httpError _ _ => true
  | .success content => decide (jsTrim content = "")

/-! ### Anti-echo cleanup (`cleanRewrittenText`, part_000 lines 159-186) -/

/-- Strip the original text from the model output when the output echoes it.
Mirrors `cleanRewrittenText(rewritten, original)`: below 15 characters the
input is returned untouched; an exact inclusion of equal length is accepted
as-is, a longer one has its first occurrence removed; otherwise, when the
tail of the output contains the first 80% of the original, the output is cut
at the last occurrence of that 80% head. `Math.floor(len * 0.8)` is the
exact floor `len * 4 / 5`. -/
def cleanRewrittenText (rewritten original : String) : String :=
  if original.length < 15 then rewritten
  else if jsIncludes rewritten original then
    if rewritten.length = original.length then rewritten
    else jsTrim (jsReplaceFirst rewritten original "")
  else
    let threshold := original.length * 4 / 5
    let origHead := jsTake original threshold
    let tail := jsSliceLast rewritten (original.length + 10)
    if jsIncludes tail origHead then
      let cutIndex := jsLastIndexOf rewritten origHead
      if cutIndex > 0 then jsTrim (jsTake rewritten cutIndex.toNat)
      else rewritten
    else rewritten

/-! ### Rewrite client (`rewriteTextWithOpenAI`, part_000 lines 94-156) -/

/-- Body of the `try` block of `rewriteTextWithOpenAI`: every `throw` site is
an `Except.error`. -/
def rewriteAttempt (cleanText : String) (net : FetchResult) : Except String String :=
  match net with
  | .transportError m => .error m
  | .httpError _ m => .error ("API Error: " ++ m)
  | .success content =>
    let rewrittenText := jsTrim content
    if rewrittenText = "" then .error "OpenAI returned empty response"
    else .ok (cleanRewrittenText rewrittenText cleanText)

/-- Model of `rewriteTextWithOpenAI(text, targetLevel, apiKey)`: the input is
normalised to `cleanText`, the request is attempted, and the surrounding
`catch` turns every failure into the original `text` (fail-open). The
function is total: no exception escapes to the caller. -/
def rewriteTextWithOpenAI (text targetLevel : String) (net : FetchResult) : String :=
  let _ := targetLevel
  let cleanText := jsTake (collapseWs (jsTrim text)) 2000
  match rewriteAttempt cleanText net with
  | .ok v => v
  | .error _ => text

/-! ### Summarization path (`createSummary` / `summarizePageContent`,
part_000 lines 285-358) -/

/-- Result shape of `summarizePageContent`. -/
structure SummarizeOutcome where
  success : Bool
  summaryLength : Option Nat
  error : Option String
deriving DecidableEq

/-- Model of `createSummary`: HTTP-level failures are rethrown wrapped in
`Failed to create summary: …`; an ok response returns the trimmed first
completion with no blank check. -/
def createSummary (net : FetchResult) : Except String String :=
  match net with
  | .transportError m => .error ("Failed to create summary: " ++ m)
  | .httpError _ m => .error ("Failed to create summary: API Error: " ++ m)
  | .success content => .ok (jsTrim content)

/-- Model of `summarizePageContent`: the extracted page text is checked for
emptiness, the summary is created, handed to the download collaborator
(no observable effect modelled), and the outcome reports the summary length. -/
def summarizePageContent (extracted targetLevel : String) (net : FetchResult) :
    SummarizeOutcome :=
  let _ := targetLevel
  if jsTrim extracted = "" then
    { success := false, summaryLength := none,
      error := some "No readable text content found on this page" }
  else
    match createSummary net with
    | .error e => { success := false, summaryLength := none, error := some e }
    | .ok summary => { success := true, summaryLength := some summary.length, error := none }

/-! ### DOM model

An element's own data (tag, class, attributes, inline style, computed style,
layout metrics) is a flat record; the document and every element's child list
are forests. `style` is the element's inline `CSSStyleDeclaration` (empty
string = property not set, and `cssText` save/restore is modelled as
save/restore of the whole record); `computed` is the snapshot
`getComputedStyle` would report. -/

/-- Subset of a CSS style declaration touched by the script. -/
structure StyleDecl where
  fontSize : String
  fontFamily : String
  fontWeight : String
  fontStyle : String
  textDecoration : String
  textTransform : String
  lineHeight : String
  color : String
  textAlign : String
  letterSpacing : String
  display : String
  visibility : String
  opacity : String
  transition : String
deriving DecidableEq

/-- The all-empty inline style. -/
def StyleDecl.empty : StyleDecl :=
  { fontSize := "", fontFamily := "", fontWeight := "", fontStyle := "",
    textDecoration := "", textTransform := "", lineHeight := "", color := "",
    textAlign := "", letterSpacing := "", display := "", visibility := "",
    opacity := "", transition := "" }

/-- Per-element data of a DOM element node. -/
structure ElemData where
  tag : String
  className : String
  idAttr : String
  role : Option String
  onclick : Bool
  offsetWidth : Nat
  offsetHeight : Nat
  style : StyleDecl
  computed : StyleDecl
deriving DecidableEq

/-- A forest of DOM nodes: the empty forest, a text node followed by
siblings, or an element node (with its child forest) followed by siblings. -/
inductive DomForest where
  | nil : DomForest
  | textCons (content : String) (rest : DomForest) : DomForest
  | elemCons (data : ElemData) (children : DomForest) (rest : DomForest) : DomForest
deriving DecidableEq

/-- Model of `Node.textContent` read on a forest: concatenation of all
descendant text nodes in document order. -/
def nodesText : DomForest → String
  | .nil => ""
  | .textCons s rest => s ++ nodesText rest
  | .elemCons _ cs rest => nodesText cs ++ nodesText rest

/-- Model of `getTextNodes` (part_000 lines 516-527) enriched with each text
node's parent element tag (`parentElement.tagName` is needed by the writer):
the in-order list of `(parentTag, content)` pairs. `ptag` is the tag of the
element the forest is the child list of. -/
def getTextNodes (ptag : String) : DomForest → List (String × String)
  | .nil => []
  | .textCons s rest => (ptag, s) :: getTextNodes ptag rest
  | .elemCons d cs rest => getTextNodes d.tag cs ++ getTextNodes ptag rest

/-- Number of text nodes in a forest. -/
def textCount : DomForest → Nat
  | .nil => 0
  | .textCons _ rest => textCount rest + 1
  | .elemCons _ cs rest => textCount cs + textCount rest

/-- Number of element nodes in a forest. -/
def elemCount : DomForest → Nat
  | .nil => 0
  | .textCons _ rest => elemCount rest
  | .elemCons _ cs rest => elemCount cs + elemCount rest + 1

/-- The shape of a forest: every text node's content is erased, so two
forests have the same shape exactly when no node was added, removed or moved. -/
def shape : DomForest → DomForest
  | .nil => .nil
  | .textCons _ rest => .textCons "" (shape rest)
  | .elemCons d cs rest => .elemCons d (shape cs) (shape rest)

/-- Serialized markup of a forest (the `innerHTML` string of an element whose
child list it is), with attributes elided: equal forests serialize to
byte-for-byte equal markup. -/
def serializeForest : DomForest → String
  | .nil => ""
  | .textCons s rest => s ++ serializeForest rest
  | .elemCons d cs rest =>
    "<" ++ d.tag ++ ">" ++ serializeForest cs ++ "</" ++ d.tag ++ ">" ++ serializeForest rest

/-- Rewrite every text node of a forest with `f` applied to its in-order
index (counting from `i`) and current content; returns the new forest and the
next unused index. Text-content assignment never adds or removes nodes. -/
def mapTextAux (f : Nat → String → String) : Nat → DomForest → DomForest × Nat
  | i, .nil => (.nil, i)
  | i, .textCons s rest =>
    let p := mapTextAux f (i + 1) rest
    (.textCons (f i s) p.1, p.2)
  | i, .elemCons d cs rest =>
    let p := mapTextAux f i cs
    let q := mapTextAux f p.2 rest
    (.elemCons d p.1 q.1, q.2)

/-! ### Visual-Preserving Writer (`replaceElementTextContent`,
part_000 lines 189-280) -/

/-- One live element: its own data plus its child forest. -/
structure ElementState where
  data : ElemData
  children : DomForest
deriving DecidableEq

/-- True when the element's child list is exactly one text node
(the `childNodes.length === 1 && nodeType === TEXT_NODE` fast path). -/
def isSingleTextNode : DomForest → Bool
  | .textCons _ .nil => true
  | _ => false

/-- Condition of `textNodes.find(...)`: trimmed length above 5 and the parent
tag is not SCRIPT, STYLE or NOSCRIPT (the case-insensitive anchored regex on
the uppercase `tagName`). -/
def mainNodeCond (ps : String × String) : Bool :=
  decide ((jsTrim ps.2).length > 5) && !(["SCRIPT", "STYLE", "NOSCRIPT"].contains (jsToUpper ps.1))

/-- Index (in `getTextNodes` order) of the primary text node the writer
overwrites: the first node satisfying `mainNodeCond`, else node 0
(`textNodes.find(...) || textNodes[0]`). -/
def mainTextIdx (tag : String) (children : DomForest) : Nat :=
  let tns := getTextNodes tag children
  let ci := tns.findIdx mainNodeCond
  if ci < tns.length then ci else 0

/-- Content rule applied to the `j`-th text node when the writer substitutes
into a multi-node element: the primary node receives `newText`; any other
node whose content trims nonempty and is under 50 characters is cleared to
the empty string; all other nodes keep their content. -/
def substRule (mainIdx : Nat) (newText : String) (j : Nat) (s : String) : String :=
  if j = mainIdx then newText
  else if jsTrim s != "" && decide (s.length < 50) then "" else s

/-- Text substitution performed inside the writer's timeout callback:
a single text-node child is overwritten wholesale; otherwise the primary
descendant text node carries `newText` and small fragments are cleared in
place; with no descendant text node at all, `element.textContent = newText`
replaces the entire child list with one text node. -/
def substituteChildren (tag : String) (children : DomForest) (newText : String) : DomForest :=
  if isSingleTextNode children then .textCons newText .nil
  else
    let tns := getTextNodes tag children
    if tns.isEmpty then .textCons newText .nil
    else (mapTextAux (substRule (mainTextIdx tag children) newText) 0 children).1

/-- Model of `replaceElementTextContent(element, newText)`: computed
typography is captured before any mutation, the text is substituted, class
and inline style (`cssText`) are restored, the captured typography is forced
onto the element's inline style (note `letterSpacing` is captured but never
forced), and opacity is restored to 1. -/
def replaceElementTextContent (e : ElementState) (newText : String) : ElementState :=
  let forced := e.data.computed
  let originalClass := e.data.className
  let originalStyle := e.data.style
  { data := { e.data with
      className := originalClass,
      style := { originalStyle with
        fontSize := forced.fontSize
        fontFamily := forced.fontFamily
        fontWeight := forced.fontWeight
        fontStyle := forced.fontStyle
        textDecoration := forced.textDecoration
        textTransform := forced.textTransform
        lineHeight := forced.lineHeight
        color := forced.color
        textAlign := forced.textAlign
        opacity := "1" } },
    children := substituteChildren e.data.tag e.children newText }

/-! ### Content Selector (`storeOriginalTexts`, part_000 lines 395-425) -/

/-- Model of `isVisible` (part_000 lines 428-435). -/
def isVisible (d : ElemData) : Bool :=
  d.computed.display != "none" && d.computed.visibility != "hidden" &&
  d.computed.opacity != "0" && decide (d.offsetWidth > 0) && decide (d.offsetHeight > 0)

/-- Class attribute split into class-list tokens on whitespace. -/
def classTokensAux : List Char → List Char → List String
  | acc, [] => if acc.isEmpty then [] else [⟨acc.reverse⟩]
  | acc, c :: t =>
    if c.isWhitespace then
      (if acc.isEmpty then [] else [⟨acc.reverse⟩]) ++ classTokensAux [] t
    else classTokensAux (c :: acc) t

/-- Class-list tokens of a `class` attribute value. -/
def classTokens (s : String) : List String :=
  classTokensAux [] s.data

/-- True when an element itself matches the `closest` selector of `isInNav`
(part_000 lines 438-440): tag nav/header/footer/aside or class list
containing nav, navigation, menu, header, footer or sidebar. `isInNav`
holds when this matches the element or any ancestor. -/
def navSelectorMatch (d : ElemData) : Bool :=
  ["nav", "header", "footer", "aside"].contains (jsToLower d.tag) ||
  ["nav", "navigation", "menu", "header", "footer", "sidebar"].any
    (fun c => (classTokens d.className).contains c)

/-- Model of `isInteractive` (part_000 lines 443-448). -/
def isInteractive (d : ElemData) : Bool :=
  (jsToUpper d.tag) == "BUTTON" || (jsToUpper d.tag) == "A" ||
  d.role == some "button" || d.onclick

/-- True when an element matches the `querySelectorAll` selector list of
`storeOriginalTexts`: any p or h1-h6 (the descendant variants add no further
elements), or a div whose class attribute does not contain the substrings
nav, menu or sidebar (`div:not(nav):not(header):not(footer)` is vacuous on a
div; `[class*="…"]` is attribute-substring matching). -/
def queryMatch (d : ElemData) : Bool :=
  ["p", "h1", "h2", "h3", "h4", "h5", "h6"].contains (jsToLower d.tag) ||
  ((jsToLower d.tag) == "div" &&
    !(jsIncludes d.className "nav" || jsIncludes d.className "menu" ||
      jsIncludes d.className "sidebar"))

/-- All element nodes of a document forest in document (pre-)order, each with
the flag "this element or an ancestor matches the nav selector" (the value of
`isInNav`) and its child forest. -/
def preorderElems (inNav : Bool) : DomForest → List (Bool × ElemData × DomForest)
  | .nil => []
  | .textCons _ rest => preorderElems inNav rest
  | .elemCons d cs rest =>
    let selfNav := inNav || navSelectorMatch d
    (selfNav, d, cs) :: (preorderElems selfNav cs ++ preorderElems inNav rest)

/-- One stored rewrite candidate (`originalTexts.set(index, {...})`). -/
structure TextUnit where
  element : ElementState
  originalText : String
  originalHTML : DomForest
deriving DecidableEq

/-- Eligibility filter applied inside the `forEach` of `storeOriginalTexts`:
truthy and over-25-character trimmed text, visible, not inside navigation,
not interactive. `nav` is the element's `isInNav` value. -/
def unitKeep (nav : Bool) (d : ElemData) (cs : DomForest) : Bool :=
  nodesText cs != "" && decide ((jsTrim (nodesText cs)).length > 25) &&
  isVisible d && !nav && !isInteractive d

/-- The `forEach` with its external `index` counter: eligible elements are
stored under a counter that increments only on store. -/
def buildUnits : Nat → List (Bool × ElemData × DomForest) → List (Nat × TextUnit)
  | _, [] => []
  | i, (nav, d, cs) :: rest =>
    if unitKeep nav d cs then
      (i, { element := ⟨d, cs⟩, originalText := nodesText cs, originalHTML := cs })
        :: buildUnits (i + 1) rest
    else buildUnits i rest

/-- The ordered map `storeOriginalTexts` builds for a document: query
matches in document order, filtered and indexed. -/
def storedUnits (doc : DomForest) : List (Nat × TextUnit) :=
  buildUnits 0 ((preorderElems false doc).filter (fun x => queryMatch x.2.1))

/-! ### Session State and Orchestrator
(`rewritePageContent` / `rewriteTextElements`, part_000 lines 34-91) -/

/-- The module-global mutable state of the content script. -/
structure SessionState where
  originalTexts : List (Nat × TextUnit)
  isRewritten : Bool
deriving DecidableEq

/-- Model of `storeOriginalTexts()` as a state transformer: the map is
cleared and rebuilt from the document alone; `isRewritten` is untouched. -/
def storeOriginalTexts (doc : DomForest) (s : SessionState) : SessionState :=
  { originalTexts := storedUnits doc, isRewritten := s.isRewritten }

/-- Result shape of `rewritePageContent`. -/
structure RewriteOutcome where
  success : Bool
  elementsRewritten : Option Nat
  error : Option String
deriving DecidableEq

/-- Model of the loop of `rewriteTextElements`: `processed` is the running
`processedElements` counter, `totalElements` the map size. A unit whose
trimmed text exceeds 10 characters emits one progress value
`10 + Math.floor((processed / total) * 80)` (exact integer floor here; the
JS double computation is monotone in `processed` and bounded the same way),
is rewritten through the client with that unit's fetch outcome `oracle idx`,
and its element is updated by the writer; other units are skipped. Per-unit
errors are caught inside the loop, so the loop always completes. Returns the
updated map and the emitted progress values in order. -/
def rewriteTextElements (targetLevel : String) (oracle : Nat → FetchResult)
    (totalElements : Nat) :
    Nat → List (Nat × TextUnit) → List (Nat × TextUnit) × List Nat
  | _, [] => ([], [])
  | processed, (idx, u) :: rest =>
    let r := rewriteTextElements targetLevel oracle totalElements (processed + 1) rest
    if decide ((jsTrim u.originalText).length > 10) then
      let rewrittenText := rewriteTextWithOpenAI u.originalText targetLevel (oracle idx)
      ((idx, { u with element := replaceElementTextContent u.element rewrittenText }) :: r.1,
        (10 + processed * 80 / totalElements) :: r.2)
    else ((idx, u) :: r.1, r.2)

/-- Model of `rewritePageContent(apiKey, targetLevel)`: select units unless a
session is already active, emit 10, run the per-unit loop, mark the session
rewritten, emit 100, and report success with the map size. Returns the new
session state, the outcome, and the full ordered list of progress values. -/
def rewritePageContent (doc : DomForest) (s : SessionState) (targetLevel : String)
    (oracle : Nat → FetchResult) : SessionState × RewriteOutcome × List Nat :=
  let s1 := if s.isRewritten then s else storeOriginalTexts doc s
  let m := s1.originalTexts
  let r := rewriteTextElements targetLevel oracle m.length 0 m
  ({ originalTexts := r.1, isRewritten := true },
   { success := true, elementsRewritten := some r.1.length, error := none },
   10 :: (r.2 ++ [100]))

/-! ### Reset (`resetPageContent`, part_000 lines 529-552) -/

/-- Per-unit body of the reset loop: `innerHTML` is overwritten with the
stored markup and eight forced style properties are cleared. The source
clears `fontSize`, `fontFamily`, `fontWeight`, `fontStyle`,
`textDecoration`, `lineHeight`, `color` and `textAlign`; it does not clear
`textTransform`, although the writer forces it. -/
def resetUnit (u : TextUnit) : TextUnit :=
  { u with element :=
    { data := { u.element.data with style := { u.element.data.style with
        fontSize := "", fontFamily := "", fontWeight := "", fontStyle := "",
        textDecoration := "", lineHeight := "", color := "", textAlign := "" } },
      children := u.originalHTML } }

/-- Model of `resetPageContent()`: a no-op unless a session is active;
otherwise every stored unit is restored and the session is deactivated. -/
def resetPageContent (s : SessionState) : SessionState :=
  if s.isRewritten then
    { originalTexts := s.originalTexts.map (fun p => (p.1, resetUnit p.2)),
      isRewritten := false }
  else s

/-! ### Helper lemmas on forests -/

theorem mapTextAux_snd (f : Nat → String → String) :
    ∀ (t : DomForest) (i : Nat), (mapTextAux f i t).2 = i + textCount t := by
  intro t
  induction t with
  | nil => intro i; simp [mapTextAux, textCount]
  | textCons s rest ih => intro i; simp [mapTextAux, textCount, ih]; omega
  | elemCons d cs rest ih1 ih2 => intro i; simp [mapTextAux, textCount, ih1, ih2]; omega

theorem mapTextAux_shape (f : Nat → String → String) :
    ∀ (t : DomForest) (i : Nat), shape (mapTextAux f i t).1 = shape t := by
  intro t
  induction t with
  | nil => intro i; rfl
  | textCons s rest ih => intro i; simp [mapTextAux, shape, ih]
  | elemCons d cs rest ih1 ih2 => intro i; simp [mapTextAux, shape, ih1, ih2]

theorem getTextNodes_length :
    ∀ (t : DomForest) (ptag : String), (getTextNodes ptag t).length = textCount t := by
  intro t
  induction t with
  | nil => intro ptag; rfl
  | textCons s rest ih => intro ptag; simp [getTextNodes, textCount, ih]
  | elemCons d cs rest ih1 ih2 => intro ptag; simp [getTextNodes, textCount, ih1, ih2]

theorem elemCount_shape : ∀ t : DomForest, elemCount (shape t) = elemCount t := by
  intro t
  induction t with
  | nil => rfl
  | textCons s rest ih => simp [shape, elemCount, ih]
  | elemCons d cs rest ih1 ih2 => simp [shape, elemCount, ih1, ih2]

theorem textCount_shape : ∀ t : DomForest, textCount (shape t) = textCount t := by
  intro t
  induction t with
  | nil => rfl
  | textCons s rest ih => simp [shape, textCount, ih]
  | elemCons d cs rest ih1 ih2 => simp [shape, textCount, ih1, ih2]

theorem mapTextAux_getTextNodes (f : Nat → String → String) :
    ∀ (t : DomForest) (i : Nat) (ptag : String),
      getTextNodes ptag (mapTextAux f i t).1 =
        List.zipWith (fun j ps => (Prod.fst ps, f j (Prod.snd ps)))
          (List.range' i (textCount t)) (getTextNodes ptag t) := by
  intro t
  induction t with
  | nil => intro i ptag; simp [mapTextAux, getTextNodes, textCount]
  | textCons s rest ih =>
    intro i ptag
    simp [mapTextAux, getTextNodes, textCount, List.range'_succ, ih]
  | elemCons d cs rest ih1 ih2 =>
    intro i ptag
    simp only [mapTextAux, getTextNodes, textCount, mapTextAux_snd]
    rw [ih1, ih2, Nat.add_comm (textCount cs) (textCount rest),
      ← List.range'_append_1 i (textCount cs) (textCount rest), List.zipWith_append]
    simp [getTextNodes_length]

/-! ### Helper lemmas on the selector -/

theorem buildUnits_mem_spec :
    ∀ (l : List (Bool × ElemData × DomForest)) (i : Nat) (p : Nat × TextUnit),
      p ∈ buildUnits i l →
      (jsTrim p.2.originalText).length > 25 ∧ p.2.originalHTML = p.2.element.children := by
  intro l
  induction l with
  | nil => intro i p h; simp [buildUnits] at h
  | cons hd tl ih =>
    intro i p h
    obtain ⟨nav, d, cs⟩ := hd
    by_cases hk : unitKeep nav d cs = true
    · simp only [buildUnits, if_pos hk] at h
      rcases List.mem_cons.mp h with h | h
      · subst h
        refine ⟨?_, rfl⟩
        simp only [unitKeep, Bool.and_eq_true, decide_eq_true_eq] at hk
        exact hk.1.1.1.2
      · exact ih _ _ h
    · simp only [buildUnits, if_neg hk] at h
      exact ih _ _ h

theorem buildUnits_map_fst :
    ∀ (l : List (Bool × ElemData × DomForest)) (i : Nat),
      (buildUnits i l).map Prod.fst = List.range' i (buildUnits i l).length := by
  intro l
  induction l with
  | nil => intro i; rfl
  | cons hd tl ih =>
    intro i
    obtain ⟨nav, d, cs⟩ := hd
    by_cases hk : unitKeep nav d cs = true
    · simp only [buildUnits, if_pos hk, List.map_cons, List.length_cons]
      rw [List.range'_succ, ih (i + 1)]
    · simp only [buildUnits, if_neg hk]
      exact ih i

/-! ### Helper lemmas on the rewrite loop -/

theorem rte_length (targetLevel : String) (oracle : Nat → FetchResult) (tot : Nat) :
    ∀ (l : List (Nat × TextUnit)) (p : Nat),
      ((rewriteTextElements targetLevel oracle tot p l).1).length = l.length := by
  intro l
  induction l with
  | nil => intro p; rfl
  | cons hd tl ih =>
    intro p
    obtain ⟨idx, u⟩ := hd
    by_cases hc : decide ((jsTrim u.originalText).length > 10) = true
    · simp only [rewriteTextElements, if_pos hc, List.length_cons, ih]
    · simp only [rewriteTextElements, if_neg hc, List.length_cons, ih]

theorem rte_evs_lb (targetLevel : String) (oracle : Nat → FetchResult) (tot : Nat) :
    ∀ (l : List (Nat × TextUnit)) (p x : Nat),
      x ∈ (rewriteTextElements targetLevel oracle tot p l).2 →
      10 + p * 80 / tot ≤ x := by
  intro l
  induction l with
  | nil => intro p x hx; simp [rewriteTextElements] at hx
  | cons hd tl ih =>
    intro p x hx
    obtain ⟨idx, u⟩ := hd
    have hmono : 10 + p * 80 / tot ≤ 10 + (p + 1) * 80 / tot := by
      have h1 : p * 80 ≤ (p + 1) * 80 := Nat.mul_le_mul_right _ (Nat.le_succ p)
      exact Nat.add_le_add_left (Nat.div_le_div_right h1) _
    by_cases hc : decide ((jsTrim u.originalText).length > 10) = true
    · simp only [rewriteTextElements, if_pos hc] at hx
      rcases List.mem_cons.mp hx with h | h
      · exact h ▸ Nat.le_refl _
      · exact Nat.le_trans hmono (ih (p + 1) x h)
    · simp only [rewriteTextElements, if_neg hc] at hx
      exact Nat.le_trans hmono (ih (p + 1) x hx)

theorem rte_evs_ub (targetLevel : String) (oracle : Nat → FetchResult) (tot : Nat) :
    ∀ (l : List (Nat × TextUnit)) (p : Nat), p + l.length ≤ tot →
      ∀ x ∈ (rewriteTextElements targetLevel oracle tot p l).2, x ≤ 89 := by
  intro l
  induction l with
  | nil => intro p _ x hx; simp [rewriteTextElements] at hx
  | cons hd tl ih =>
    intro p hlen x hx
    obtain ⟨idx, u⟩ := hd
    have htl : p + 1 + tl.length ≤ tot := by
      simp only [List.length_cons] at hlen; omega
    by_cases hc : decide ((jsTrim u.originalText).length > 10) = true
    · simp only [rewriteTextElements, if_pos hc] at hx
      rcases List.mem_cons.mp hx with h | h
      · have hp : p < tot := by simp only [List.length_cons] at hlen; omega
        have hdiv : p * 80 / tot < 80 := by
          rw [Nat.div_lt_iff_lt_mul (by omega : 0 < tot)]
          omega
        omega
      · exact ih (p + 1) htl x h
    · simp only [rewriteTextElements, if_neg hc] at hx
      exact ih (p + 1) htl x hx

theorem rte_evs_chain (targetLevel : String) (oracle : Nat → FetchResult) (tot : Nat) :
    ∀ (l : List (Nat × TextUnit)) (p : Nat),
      List.Chain' (· ≤ ·) (rewriteTextElements targetLevel oracle tot p l).2 := by
  intro l
  induction l with
  | nil => intro p; simp [rewriteTextElements]
  | cons hd tl ih =>
    intro p
    obtain ⟨idx, u⟩ := hd
    by_cases hc : decide ((jsTrim u.originalText).length > 10) = true
    · simp only [rewriteTextElements, if_pos hc]
      refine List.chain'_cons'.mpr ⟨?_, ih (p + 1)⟩
      intro y hy
      have hmem := List.mem_of_mem_head? hy
      have hly := rte_evs_lb targetLevel oracle tot tl (p + 1) y hmem
      have h1 : p * 80 ≤ (p + 1) * 80 := Nat.mul_le_mul_right _ (Nat.le_succ p)
      have h2 : p * 80 / tot ≤ (p + 1) * 80 / tot := Nat.div_le_div_right h1
      omega
    · simp only [rewriteTextElements, if_neg hc]
      exact ih (p + 1)

theorem rte_reset_forall₂ (targetLevel : String) (oracle : Nat → FetchResult) (tot : Nat) :
    ∀ (l : List (Nat × TextUnit)) (p : Nat),
      (∀ q ∈ l, q.2.originalHTML = q.2.element.children) →
      List.Forall₂ (fun a b => b.1 = a.1 ∧ b.2.element.children = a.2.originalHTML ∧
          b.2.element.children = a.2.element.children)
        l (((rewriteTextElements targetLevel oracle tot p l).1).map
            (fun q => (q.1, resetUnit q.2))) := by
  intro l
  induction l with
  | nil => intro p _; exact List.Forall₂.nil
  | cons hd tl ih =>
    intro p hinv
    obtain ⟨idx, u⟩ := hd
    have hhd : u.originalHTML = u.element.children := hinv (idx, u) (List.mem_cons_self _ _)
    have htl : ∀ q ∈ tl, q.2.originalHTML = q.2.element.children :=
      fun q hq => hinv q (List.mem_cons_of_mem _ hq)
    by_cases hc : decide ((jsTrim u.originalText).length > 10) = true
    · simp only [rewriteTextElements, if_pos hc, List.map_cons]
      exact List.Forall₂.cons ⟨rfl, rfl, hhd⟩ (ih (p + 1) htl)
    · simp only [rewriteTextElements, if_neg hc, List.map_cons]
      exact List.Forall₂.cons ⟨rfl, rfl, hhd⟩ (ih (p + 1) htl)

/-! ### Concrete sample inputs used by witnesses and counterexamples -/

/-- A computed style for a plainly visible element. -/
def visibleComputed : StyleDecl :=
  { StyleDecl.empty with display := "block", visibility := "visible", opacity := "1" }

/-- A plain visible paragraph element with no class, role or handler. -/
def paraData : ElemData :=
  { tag := "p", className := "", idAttr := "", role := none, onclick := false,
    offsetWidth := 100, offsetHeight := 20, style := StyleDecl.empty,
    computed := visibleComputed }

/-- Child forest of the sample paragraph: one 26-character text node. -/
def sampleForest : DomForest :=
  .textCons "abcdefghijklmnopqrstuvwxyz" .nil

/-- A document holding exactly the sample paragraph. -/
def sampleDoc : DomForest :=
  .elemCons paraData sampleForest .nil

/-- The unit the selector stores for `sampleDoc`. -/
def sampleUnit : TextUnit :=
  { element := ⟨paraData, sampleForest⟩,
    originalText := "abcdefghijklmnopqrstuvwxyz",
    originalHTML := sampleForest }

/-- Computed style of a paragraph rendered with `text-transform: uppercase`. -/
def upperComputed : StyleDecl :=
  { visibleComputed with textTransform := "uppercase", fontSize := "16px" }

/-- The uppercase-transformed paragraph. -/
def upperParaData : ElemData :=
  { paraData with computed := upperComputed }

/-- A document holding one visible paragraph whose computed style carries a
non-default `text-transform`. -/
def upperDoc : DomForest :=
  .elemCons upperParaData (.textCons "This sentence has over twenty six characters." .nil) .nil

/-- Session state after rewriting `upperDoc` (one successful completion) and
then resetting. -/
def upperFinal : SessionState :=
  resetPageContent
    (rewritePageContent upperDoc ⟨[], false⟩ "A1"
      (fun _ => FetchResult.success "Easy words.")).1

/-- An image element (no text content). -/
def imgData : ElemData :=
  { paraData with tag := "img" }

/-- A div element. -/
def divData : ElemData :=
  { paraData with tag := "div" }

/-- A div whose children are two image elements and no text node at all. -/
def imgOnlyElement : ElementState :=
  ⟨divData, .elemCons imgData .nil (.elemCons imgData .nil .nil)⟩

/-- An inline-emphasis element. -/
def emData : ElemData :=
  { paraData with tag := "em" }

/-- A child forest with a small leading fragment and a long text node inside
a nested emphasis element. -/
def mixedForest : DomForest :=
  .textCons "hi" (.elemCons emData (.textCons "This is the long main text content node" .nil) .nil)

/-! ### Claim theorems -/

/-- C1: for every input text and target level, whenever the rewrite request
fails (transport error, non-success HTTP status, or blank completion),
`rewriteTextWithOpenAI` resolves to exactly the original input text — which
is therefore non-empty whenever the input is — and, being a total function
whose every failure branch is caught, it never throws to its caller. -/
theorem c1_rewrite_fail_open (text targetLevel : String) (net : FetchResult)
    (h : requestFails net = true) :
    rewriteTextWithOpenAI text targetLevel net = text ∧
    (text ≠ "" → rewriteTextWithOpenAI text targetLevel net ≠ "") := by
  have hmain : rewriteTextWithOpenAI text targetLevel net = text := by
    cases net with
    | transportError m => rfl
    | httpError st m => rfl
    | success content =>
      have hc : jsTrim content = "" := of_decide_eq_true h
      simp [rewriteTextWithOpenAI, rewriteAttempt, hc]
  refine ⟨hmain, fun hne => ?_⟩
  rw [hmain]
  exact hne

/-- Witness for C1 at a blank completion. -/
theorem c1_rewrite_fail_open_witness :
    requestFails (FetchResult.success "   ") = true ∧
    rewriteTextWithOpenAI "Hello world" "A1" (FetchResult.success "   ") = "Hello world" ∧
    rewriteTextWithOpenAI "Hello world" "A1" (FetchResult.success "   ") ≠ "" :=
  ⟨by decide,
   (c1_rewrite_fail_open "Hello world" "A1" (FetchResult.success "   ") (by decide)).1,
   (c1_rewrite_fail_open "Hello world" "A1" (FetchResult.success "   ") (by decide)).2
     (by decide)⟩

/-- C2 counterexample: an output of exactly the input's length that does not
contain the input verbatim but whose tail contains the input's first 80% is
truncated by `cleanRewrittenText`, so equal length alone does not protect
the output from being altered. -/
theorem c2_counterexample :
    ("zzz0123456789012345q" : String).length = ("0123456789012345XYZW" : String).length ∧
    cleanRewrittenText "zzz0123456789012345q" "0123456789012345XYZW" = "zzz" ∧
    cleanRewrittenText "zzz0123456789012345q" "0123456789012345XYZW" ≠
      "zzz0123456789012345q" := by
  refine ⟨rfl, by decide, by decide⟩

/-- C2 (amended): for every pair of strings of exactly equal lengths,
`cleanRewrittenText` returns the output unchanged provided the input is
shorter than 15 characters or the output contains the input verbatim (the
accepted-echo case); the 80%-tail heuristic can still truncate an
equal-length output that only approximately repeats the input. -/
theorem c2_clean_equal_length (rewritten original : String)
    (hlen : rewritten.length = original.length)
    (hcase : original.length < 15 ∨ jsIncludes rewritten original = true) :
    cleanRewrittenText rewritten original = rewritten := by
  unfold cleanRewrittenText
  rcases hcase with h15 | hinc
  · rw [if_pos h15]
  · by_cases h15 : original.length < 15
    · rw [if_pos h15]
    · rw [if_neg h15, if_pos hinc, if_pos hlen]

/-- Witness for amended C2 at an exact equal-length echo. -/
theorem c2_clean_equal_length_witness :
    (("abcdefghijklmnop" : String).length = ("abcdefghijklmnop" : String).length ∧
      jsIncludes "abcdefghijklmnop" "abcdefghijklmnop" = true) ∧
    cleanRewrittenText "abcdefghijklmnop" "abcdefghijklmnop" = "abcdefghijklmnop" :=
  ⟨⟨rfl, by decide⟩,
   c2_clean_equal_length "abcdefghijklmnop" "abcdefghijklmnop" rfl (Or.inr (by decide))⟩

/-- C3: evaluation of the failing input. The writer forces the computed
`text-transform` (here `uppercase`) onto the element's inline style, but
`resetPageContent` clears only eight of the nine forced properties: after a
rewrite followed by reset, `fontSize` is back to empty while `textTransform`
is still `uppercase`, contradicting the claim that every forced style
property is cleared. -/
theorem c3_reset_keeps_texttransform :
    upperFinal.originalTexts.map (fun p => p.2.element.data.style.textTransform) =
      ["uppercase"] ∧
    upperFinal.originalTexts.map (fun p => p.2.element.data.style.fontSize) = [""] ∧
    upperFinal.originalTexts.map (fun p => p.2.element.data.style.color) = [""] ∧
    upperFinal.isRewritten = false := by
  decide

/-- C4: round trip on markup. For any document, capture then rewrite (under
any per-unit network behaviour) then reset yields, unit by unit in order,
an element whose child forest equals the `originalHTML` captured by the
selector — which is the child forest the element had before any rewrite —
and whose serialized markup is therefore byte-for-byte the captured markup. -/
theorem c4_reset_restores_markup (doc : DomForest) (targetLevel : String)
    (oracle : Nat → FetchResult) :
    List.Forall₂ (fun a b => b.1 = a.1 ∧ b.2.element.children = a.2.originalHTML ∧
        b.2.element.children = a.2.element.children ∧
        serializeForest b.2.element.children = serializeForest a.2.originalHTML)
      (storedUnits doc)
      ((resetPageContent
          (rewritePageContent doc ⟨[], false⟩ targetLevel oracle).1).originalTexts) := by
  have hbase := rte_reset_forall₂ targetLevel oracle (storedUnits doc).length
    (storedUnits doc) 0 (fun q hq => (buildUnits_mem_spec _ _ _ hq).2)
  have hlist : (resetPageContent
        (rewritePageContent doc ⟨[], false⟩ targetLevel oracle).1).originalTexts =
      ((rewriteTextElements targetLevel oracle (storedUnits doc).length 0
          (storedUnits doc)).1).map (fun q => (q.1, resetUnit q.2)) := by
    simp [rewritePageContent, resetPageContent, storeOriginalTexts]
  rw [hlist]
  exact List.Forall₂.imp (fun a b hab => ⟨hab.1, hab.2.1, hab.2.2, by rw [hab.2.1]⟩) hbase

/-- C5 counterexample: with an HTTP-level success whose completion is blank
after trimming, `summarizePageContent` resolves successfully with an empty
summary (length 0) instead of aborting with a failure outcome — there is no
blank-completion check on the summarization path. -/
theorem c5_counterexample :
    summarizePageContent "Page text content" "B1" (FetchResult.success " ") =
      { success := true, summaryLength := some 0, error := none } := by
  decide

/-- C5 (amended): whenever the page text is nonblank and the summarization
request succeeds at the HTTP level with a completion that is blank after
trimming, `summarizePageContent` resolves with success and summary length 0;
only transport and HTTP errors abort the operation. -/
theorem c5_blank_completion_succeeds (extracted targetLevel content : String)
    (hpage : jsTrim extracted ≠ "")
    (hblank : jsTrim content = "") :
    summarizePageContent extracted targetLevel (FetchResult.success content) =
      { success := true, summaryLength := some 0, error := none } := by
  unfold summarizePageContent createSummary
  rw [if_neg hpage]
  simp [hblank]

/-- Witness for amended C5. -/
theorem c5_blank_completion_succeeds_witness :
    (jsTrim "Some page text" ≠ "" ∧ jsTrim "  " = "") ∧
    summarizePageContent "Some page text" "A2" (FetchResult.success "  ") =
      { success := true, summaryLength := some 0, error := none } :=
  ⟨⟨by decide, by decide⟩,
   c5_blank_completion_succeeds "Some page text" "A2" "  " (by decide) (by decide)⟩

/-- C6 counterexample: on an element whose content is not a single text node
but has no descendant text node at all (two image children), the writer's
fallback `element.textContent = newText` replaces the whole child list with
one text node, deleting both element nodes from the subtree. -/
theorem c6_counterexample_deletes_elements :
    isSingleTextNode imgOnlyElement.children = false ∧
    elemCount imgOnlyElement.children = 2 ∧
    (replaceElementTextContent imgOnlyElement "Hello").children =
      DomForest.textCons "Hello" DomForest.nil ∧
    elemCount (replaceElementTextContent imgOnlyElement "Hello").children = 0 := by
  decide

/-- C6 (amended): when the element's content is not a single text node and it
has at least one descendant text node, the writer preserves the tree shape —
no element node is deleted and no text node is removed — and the text
contents are rewritten pointwise: the primary node receives the new text,
every other fragment that trims nonempty and is under 50 characters is
cleared to empty (not removed), and all remaining nodes are unchanged. With
no descendant text node the writer instead falls back to wholesale
replacement (see the counterexample). -/
theorem c6_writer_preserves_structure (tag : String) (children : DomForest)
    (newText : String)
    (h1 : isSingleTextNode children = false)
    (h2 : (getTextNodes tag children).isEmpty = false) :
    shape (substituteChildren tag children newText) = shape children ∧
    elemCount (substituteChildren tag children newText) = elemCount children ∧
    textCount (substituteChildren tag children newText) = textCount children ∧
    getTextNodes tag (substituteChildren tag children newText) =
      List.zipWith
        (fun j ps => (Prod.fst ps, substRule (mainTextIdx tag children) newText j (Prod.snd ps)))
        (List.range' 0 (textCount children)) (getTextNodes tag children) := by
  have hsub : substituteChildren tag children newText =
      (mapTextAux (substRule (mainTextIdx tag children) newText) 0 children).1 := by
    simp only [substituteChildren]
    rw [if_neg (by simp [h1]), if_neg (by simp [h2])]
  rw [hsub]
  refine ⟨mapTextAux_shape _ children 0, ?_, ?_, mapTextAux_getTextNodes _ children 0 tag⟩
  · calc elemCount (mapTextAux (substRule (mainTextIdx tag children) newText) 0 children).1
        = elemCount (shape (mapTextAux (substRule (mainTextIdx tag children) newText) 0
            children).1) := (elemCount_shape _).symm
      _ = elemCount (shape children) := by rw [mapTextAux_shape]
      _ = elemCount children := elemCount_shape _
  · calc textCount (mapTextAux (substRule (mainTextIdx tag children) newText) 0 children).1
        = textCount (shape (mapTextAux (substRule (mainTextIdx tag children) newText) 0
            children).1) := (textCount_shape _).symm
      _ = textCount (shape children) := by rw [mapTextAux_shape]
      _ = textCount children := textCount_shape _

/-- Witness for amended C6 on a mixed forest. -/
theorem c6_writer_preserves_structure_witness :
    (isSingleTextNode mixedForest = false ∧
      (getTextNodes "p" mixedForest).isEmpty = false) ∧
    (shape (substituteChildren "p" mixedForest "New") = shape mixedForest ∧
     elemCount (substituteChildren "p" mixedForest "New") = elemCount mixedForest ∧
     textCount (substituteChildren "p" mixedForest "New") = textCount mixedForest ∧
     getTextNodes "p" (substituteChildren "p" mixedForest "New") =
       List.zipWith
         (fun j ps => (Prod.fst ps, substRule (mainTextIdx "p" mixedForest) "New" j (Prod.snd ps)))
         (List.range' 0 (textCount mixedForest)) (getTextNodes "p" mixedForest)) :=
  ⟨⟨by decide, by decide⟩,
   c6_writer_preserves_structure "p" mixedForest "New" (by decide) (by decide)⟩

/-- C7: the Content Selector is idempotent on an unchanged document: running
`storeOriginalTexts` twice in a row (the second run clears and rebuilds the
map, ignoring whatever the first stored) produces exactly the same session
state, hence the same ordered sequence of units with the same indices,
original texts and original markup. -/
theorem c7_selector_idempotent (doc : DomForest) (s : SessionState) :
    storeOriginalTexts doc (storeOriginalTexts doc s) = storeOriginalTexts doc s := rfl

/-- C8: every stored unit's original text trims to more than 25 characters,
units are keyed by a zero-based densely increasing index in discovery order,
and consequently every stored unit also passes the orchestrator's
more-than-10-characters filter. -/
theorem c8_selector_invariants (doc : DomForest) :
    (storedUnits doc).map Prod.fst = List.range (storedUnits doc).length ∧
    ∀ p ∈ storedUnits doc,
      (jsTrim p.2.originalText).length > 25 ∧ (jsTrim p.2.originalText).length > 10 := by
  constructor
  · rw [List.range_eq_range']
    exact buildUnits_map_fst _ 0
  · intro p hp
    have h := (buildUnits_mem_spec _ 0 p hp).1
    exact ⟨h, by omega⟩

/-- Witness for C8 on the sample document. -/
theorem c8_selector_invariants_witness :
    ((0, sampleUnit) ∈ storedUnits sampleDoc) ∧
    (jsTrim sampleUnit.originalText).length > 25 ∧
    (jsTrim sampleUnit.originalText).length > 10 :=
  ⟨by decide, (c8_selector_invariants sampleDoc).2 (0, sampleUnit) (by decide)⟩

/-- C9: within one completed rewrite invocation, every reported progress
value is a natural number at most 100, the reported sequence is
monotonically non-decreasing (the per-unit values `10 + floor(80·p/n)`
increase with the unit counter), and the final reported value is 100. -/
theorem c9_progress_events (doc : DomForest) (s : SessionState) (targetLevel : String)
    (oracle : Nat → FetchResult) :
    List.Chain' (· ≤ ·) (rewritePageContent doc s targetLevel oracle).2.2 ∧
    (∀ x ∈ (rewritePageContent doc s targetLevel oracle).2.2, x ≤ 100) ∧
    (rewritePageContent doc s targetLevel oracle).2.2.getLast? = some 100 := by
  have key : ∀ (l : List (Nat × TextUnit)),
      List.Chain' (· ≤ ·)
        (10 :: ((rewriteTextElements targetLevel oracle l.length 0 l).2 ++ [100])) ∧
      (∀ x ∈ 10 :: ((rewriteTextElements targetLevel oracle l.length 0 l).2 ++ [100]),
        x ≤ 100) ∧
      (10 :: ((rewriteTextElements targetLevel oracle l.length 0 l).2 ++ [100])).getLast? =
        some 100 := by
    intro l
    have hchain := rte_evs_chain targetLevel oracle l.length l 0
    have hub := rte_evs_ub targetLevel oracle l.length l 0 (by omega)
    have hlb : ∀ x ∈ (rewriteTextElements targetLevel oracle l.length 0 l).2, 10 ≤ x := by
      intro x hx
      have := rte_evs_lb targetLevel oracle l.length l 0 x hx
      simpa using this
    refine ⟨?_, ?_, ?_⟩
    · refine List.chain'_cons'.mpr ⟨?_, ?_⟩
      · intro y hy
        have hmem := List.mem_of_mem_head? hy
        rcases List.mem_append.mp hmem with h | h
        · exact hlb y h
        · have h100 : y = 100 := List.mem_singleton.mp h
          omega
      · refine List.Chain'.append hchain (List.chain'_singleton 100) ?_
        intro x hx y hy
        have hxm := List.mem_of_mem_getLast? hx
        have hy100 : y = 100 := by
          simp only [List.head?_cons, Option.mem_def, Option.some.injEq] at hy
          omega
        have := hub x hxm
        omega
    · intro x hx
      rcases List.mem_cons.mp hx with h | h
      · omega
      · rcases List.mem_append.mp h with h | h
        · have := hub x h
          omega
        · have h100 : x = 100 := List.mem_singleton.mp h
          omega
    · rw [show (10 :: ((rewriteTextElements targetLevel oracle l.length 0 l).2 ++ [100])) =
          ((10 :: (rewriteTextElements targetLevel oracle l.length 0 l).2) ++ [100]) from rfl]
      exact List.getLast?_concat _
  exact key ((if s.isRewritten then s else storeOriginalTexts doc s).originalTexts)

/-- Witness for C9 on the sample document with a failing network. -/
theorem c9_progress_events_witness :
    List.Chain' (· ≤ ·)
      (rewritePageContent sampleDoc ⟨[], false⟩ "A1"
        (fun _ => FetchResult.transportError "down")).2.2 ∧
    (100 : Nat) ≤ 100 ∧
    (rewritePageContent sampleDoc ⟨[], false⟩ "A1"
      (fun _ => FetchResult.transportError "down")).2.2.getLast? = some 100 :=
  ⟨(c9_progress_events sampleDoc ⟨[], false⟩ "A1"
      (fun _ => FetchResult.transportError "down")).1,
   (c9_progress_events sampleDoc ⟨[], false⟩ "A1"
      (fun _ => FetchResult.transportError "down")).2.1 100 (by decide),
   (c9_progress_events sampleDoc ⟨[], false⟩ "A1"
      (fun _ => FetchResult.transportError "down")).2.2⟩

/-- C10: every rewrite invocation resolves successfully and reports
`elementsRewritten` equal to the number of units captured in session state
(the freshly selected units, or the reused ones of an active session),
independently of the per-unit network oracle — failed or echoed units are
counted all the same. -/
theorem c10_elements_rewritten_count (doc : DomForest) (s : SessionState)
    (targetLevel : String) (oracle : Nat → FetchResult) :
    (rewritePageContent doc s targetLevel oracle).2.1 =
      { success := true,
        elementsRewritten :=
          some ((if s.isRewritten then s.originalTexts else storedUnits doc).length),
        error := none } := by
  by_cases hs : s.isRewritten = true
  · simp [rewritePageContent, storeOriginalTexts, hs, rte_length]
  · simp only [Bool.not_eq_true] at hs
    simp [rewritePageContent, storeOriginalTexts, hs, rte_length]

end Cefr
